import Mathlib

/-!
Verification of the matching core of the Wozo chatbot API (`main.py`).

The embedding models the pure matching engine: `tokenize`,
`score_row_by_overlap`, `simple_match`, and the response-building logic of
`handle_message` (the part after the empty-message guard and the FAQ fetch).
Strings are modelled as `List Char`; Python floats (whose only values here
are non-negative multiples of 0.5, hence exact) are modelled as `ℚ`.

Python-specific notes on the embedding:
* `re.sub(r"[^\w\sàâéèêîôûçëüï'-]", " ", text)`: Python's `\w` is modelled as
  ASCII alphanumerics, the underscore, and the accented letters listed in the
  character class (the alphabet the repository's data uses); `str.lower()` is
  modelled as `Char.toLower` (ASCII lowering).
* `row.get("question_examples")`, `row.get("tags")`, `row.get("intent")` are
  used only for truthiness or with `or`-defaults, so a missing/None/empty
  field behaves exactly like an empty one; the model uses plain fields with
  the empty value standing for "absent".  `row.get("answer", default)`
  distinguishes absence, so `answer` is an `Option`.
* Python's `x in y` on strings is contiguous-substring containment
  (`isSubstrOf`); on lists it is membership with `==` (`List.contains`).
* `list.sort(key=lambda x: x[0], reverse=True)` is a stable descending sort
  by the first component, modelled by `List.mergeSort` with the comparison
  `b.1 ≤ a.1`.
-/

namespace WozoBot

/-- Text is modelled as a list of characters. -/
abbrev Str := List Char

/-- The accented characters accepted by the tokenizer's character class
(`àâéèêîôûçëüï` in the regex of `tokenize`, `main.py` line 54). -/
def accentChars : List Char := ['à', 'â', 'é', 'è', 'ê', 'î', 'ô', 'û', 'ç', 'ë', 'ü', 'ï']

/-- Python's regex word character `\w`, restricted to the modelled alphabet:
ASCII alphanumerics, underscore, and the accented letters. -/
def isWordChar (c : Char) : Bool :=
  c.isAlphanum || c == '_' || accentChars.contains c

/-- A character kept (not replaced by a space) by
`re.sub(r"[^\w\sàâéèêîôûçëüï'-]", " ", text)`: word characters, whitespace,
the listed accented letters, the ASCII apostrophe (codepoint 39) and the
hyphen. -/
def keepChar (c : Char) : Bool :=
  isWordChar c || c.isWhitespace || accentChars.contains c || c.toNat == 39 || c == '-'

/-- Split a character list at whitespace into segments, keeping empty
segments (models Python's `str.split()` up to empty segments, which the
length filter of `tokenize` drops anyway). -/
def splitSeg : Str → List Str
  | [] => [[]]
  | c :: rest =>
    match splitSeg rest with
    | [] => [[c]]
    | t :: ts => if c.isWhitespace then [] :: t :: ts else (c :: t) :: ts

/-- The function `tokenize` (`main.py` lines 52-55): lower-case, replace every character
outside the accepted class with a space, split on whitespace, and keep only
tokens of length > 1. -/
def tokenize (text : Str) : List Str :=
  let lowered := text.map Char.toLower
  let cleaned := lowered.map (fun c => if keepChar c then c else ' ')
  (splitSeg cleaned).filter (fun t => 1 < t.length)

/-- The function `tokenize` applied to a possibly-null argument: `(text or "").lower()`
treats Python `None` as the empty string. -/
def tokenize_opt (text : Option Str) : List Str :=
  tokenize (text.getD [])

/-- One FAQ row.  `question_examples`, `tags` and `intent` are used by the
code only through truthiness, so absent/None/empty all behave like the empty
value; `answer` is optional because `row.get("answer", default)` supplies a
default when the key is missing. -/
structure KnowledgeRow where
  intent : Str
  question_examples : List Str
  tags : List Str
  answer : Option Str
deriving DecidableEq

/-- Python's `" ".join`. -/
def joinSpace (xs : List Str) : Str :=
  (xs.intersperse [' ']).flatten

/-- The combined row text built at the start of `score_row_by_overlap`
(`main.py` lines 58-64): question examples joined with spaces plus a trailing
space (when non-empty), then tags likewise, then the intent.  Appending an
empty intent is the same as skipping the falsy `row.get("intent")` branch. -/
def rowText (row : KnowledgeRow) : Str :=
  (if row.question_examples.isEmpty then [] else joinSpace row.question_examples ++ [' ']) ++
  (if row.tags.isEmpty then [] else joinSpace row.tags ++ [' ']) ++
  row.intent

/-- Python's `a in b` on strings: `a` occurs in `b` as a contiguous
substring. -/
def isSubstrOf (a b : Str) : Bool :=
  b.tails.any (fun s => a.isPrefixOf s)

/-- The function `score_row_by_overlap` (`main.py` lines 57-78): for each query token, add
1.0 on a verbatim hit among the row tokens, otherwise scan the row tokens and
add 0.5 at the first token related by substring containment in either
direction (`find?` models the `for ... break` scan). -/
def score_row_by_overlap (query_tokens : List Str) (row : KnowledgeRow) : ℚ :=
  let tokens := tokenize (rowText row)
  query_tokens.foldl
    (fun score t =>
      if tokens.contains t then score + 1
      else
        match tokens.find? (fun tk => isSubstrOf t tk || isSubstrOf tk t) with
        | some _ => score + 1/2
        | none => score)
    0

/-- The running best (score, row) pair of `simple_match`; `row = none` is the
initial `{"score": 0.0, "row": None}`. -/
structure Best where
  score : ℚ
  row : Option KnowledgeRow
deriving DecidableEq

/-- The loop body of `simple_match` updating the running best pair
(`main.py` lines 88-89): replace only on a strictly greater score. -/
def bestStep (b : Best) (sr : ℚ × KnowledgeRow) : Best :=
  if sr.1 > b.score then { score := sr.1, row := some sr.2 } else b

/-- The function `simple_match` (`main.py` lines 80-92): score every row, track the
running best pair with a strictly-greater update, and return the best pair
together with the list of (score, row) pairs sorted by score descending
(Python's stable `sort(key=lambda x: x[0], reverse=True)`). -/
def simple_match (query : Str) (faq_rows : List KnowledgeRow) :
    Best × List (ℚ × KnowledgeRow) :=
  let qtokens := tokenize query
  let scored := faq_rows.map (fun row => (score_row_by_overlap qtokens row, row))
  let best := scored.foldl bestStep { score := 0, row := none }
  (best, scored.mergeSort (fun a b => decide (b.1 ≤ a.1)))

/-- The constant `MATCH_THRESHOLD` (`main.py` line 49). -/
def MATCH_THRESHOLD : ℚ := 2

/-- The constant `SUGGEST_COUNT` (`main.py` line 50). -/
def SUGGEST_COUNT : Nat := 3

/-- The default answer used when a matched row has no `answer` key
(`main.py` line 136). -/
def no_answer_msg : Str := "Désolé, je n\x27ai pas de réponse prête.".toList

/-- The fixed apology of the fallback response (`main.py` line 155). -/
def apology : Str := "Désolé — je n’ai pas trouvé de réponse précise à ta question.".toList

/-- The note field of the fallback response (`main.py` line 158). -/
def fallback_note : Str := "Tu peux reformuler ou choisir une question suggérée.".toList

/-- The response payload built by `handle_message`: either the found branch
(answer, intent, match_score) or the fallback branch (apology, suggested
questions, match_score). -/
inductive BotResponse where
  | found : Str → Str → ℚ → BotResponse
  | fallback : Str → List Str → ℚ → BotResponse
deriving DecidableEq

/-- The `found` field of the response payload. -/
def BotResponse.isFound : BotResponse → Bool
  | .found _ _ _ => true
  | .fallback _ _ _ => false

/-- The `match_score` field of the response payload. -/
def BotResponse.matchScore : BotResponse → ℚ
  | .found _ _ s => s
  | .fallback _ _ s => s

/-- The `suggested_questions` field of the response payload (absent, i.e.
empty, in the found branch). -/
def BotResponse.suggestions : BotResponse → List Str
  | .found _ _ _ => []
  | .fallback _ s _ => s

/-- The `answer` field of the response payload. -/
def BotResponse.answerText : BotResponse → Str
  | .found a _ _ => a
  | .fallback a _ _ => a

/-- One suggestion entry of the fallback branch (`main.py` lines 148-152):
the first question example when the list is non-empty, otherwise the intent
(`row.get("intent") or ""`, where the empty value stands for both an absent
intent and the empty string). -/
def suggestionFor (row : KnowledgeRow) : Str :=
  match row.question_examples with
  | e :: _ => e
  | [] => row.intent

/-- The response-building logic of `handle_message` (`main.py` lines
131-160), after the empty-message guard and the FAQ fetch: run
`simple_match`, then return the found branch iff the best row is not `None`
and the best score reaches `MATCH_THRESHOLD`, otherwise the fallback branch
with up to `SUGGEST_COUNT` suggestions drawn from the ranked list.
`match_score = best["score"] or 0.0` is the identity on the best score since
the falsy case is `0.0` itself. -/
def respond (message_text : Str) (faq_rows : List KnowledgeRow) : BotResponse :=
  let mr := simple_match message_text faq_rows
  let best := mr.1
  let ranked := mr.2
  let match_score := best.score
  if h : best.row.isSome ∧ match_score ≥ MATCH_THRESHOLD then
    let row := best.row.get h.1
    BotResponse.found (row.answer.getD no_answer_msg) row.intent match_score
  else
    BotResponse.fallback apology
      ((ranked.take SUGGEST_COUNT).map (fun sr => suggestionFor sr.2)) match_score

/-- Python's `str.strip()` (whitespace from both ends). -/
def strip (s : Str) : Str :=
  ((s.dropWhile Char.isWhitespace).reverse.dropWhile Char.isWhitespace).reverse

/-- The full `handle_message` endpoint logic on a fetched knowledge base
(`main.py` lines 119-160): an empty or whitespace-only message is rejected
with HTTP 400 (modelled as `none`); otherwise the stripped message is
matched and a response payload is built. -/
def handle_message (message : Str) (faq_rows : List KnowledgeRow) :
    Option BotResponse :=
  if strip message = [] then none
  else some (respond (strip message) faq_rows)

/-- The per-query-token contribution of the scoring loop body of
`score_row_by_overlap`, abstracted out for reasoning: 1 on a verbatim hit,
1/2 when the first-match substring scan succeeds, 0 otherwise. -/
def tokenContribution (tokens : List Str) (t : Str) : ℚ :=
  if tokens.contains t then 1
  else
    match tokens.find? (fun tk => isSubstrOf t tk || isSubstrOf tk t) with
    | some _ => 1/2
    | none => 0

/-- Modelled from the spec (§4.2, claim C2): the per-query-token contribution
stated declaratively — 1.0 on a verbatim hit, otherwise 0.5 when some row
token is related by substring containment in either direction (counted at
most once per query token), otherwise 0. -/
def specTokenContribution (rowTokens : List Str) (t : Str) : ℚ :=
  if t ∈ rowTokens then 1
  else if ∃ tk ∈ rowTokens, isSubstrOf t tk = true ∨ isSubstrOf tk t = true then 1/2
  else 0

/-- Modelled from the spec (§4.2, claim C2): the row score as the sum, over
the query tokens in order with duplicates counted individually, of the
declarative per-token contributions. -/
def specRowScore (queryTokens rowTokens : List Str) : ℚ :=
  (queryTokens.map (specTokenContribution rowTokens)).sum

/-- The maximum of a starting value and all elements of a list (left fold by
`max`); used to characterise the running best score of `simple_match`. -/
def maxFrom (s : ℚ) (l : List ℚ) : ℚ :=
  l.foldl max s

/-- The maximum row score of a query over a knowledge base (0 for the empty
base): the value tracked by the running best of `simple_match`. -/
def maxRowScore (q : Str) (rows : List KnowledgeRow) : ℚ :=
  maxFrom 0 (rows.map (fun r => score_row_by_overlap (tokenize q) r))

/-- The knowledge row of the spec's refund scenario (§8, claim C1). -/
def refundRow : KnowledgeRow :=
  { intent := "refund".toList
    question_examples := ["How do I get a refund?".toList]
    tags := ["refund".toList, "money".toList]
    answer := some ("Contact support.".toList) }

/-- The query of the spec's refund scenario (§8, claim C1). -/
def refundQuery : Str := "I want a refund please".toList

/-- A query sharing no token with `refundRow` (every row score is 0). -/
def zzQuery : Str := "zz zz".toList

/-- A row whose combined text tokenizes to `[refund, please, refund]`; used
for threshold-boundary witnesses. -/
def boundaryRow : KnowledgeRow :=
  { intent := "refund".toList
    question_examples := ["refund please".toList]
    tags := []
    answer := some ("Contact support.".toList) }

/-- A query scoring exactly 2 against `boundaryRow` (two verbatim hits). -/
def boundaryQueryFound : Str := "refund please".toList

/-- A query scoring exactly 3/2 against `boundaryRow` (one verbatim hit plus
one substring hit). -/
def boundaryQueryFallback : Str := "refund pleas".toList

end WozoBot

namespace WozoBot

/-- The scoring loop body of `score_row_by_overlap` adds exactly
`tokenContribution` to the accumulator. -/
lemma scoreStep_eq_add (tokens : List Str) (t : Str) (a : ℚ) :
    (if tokens.contains t then a + 1
     else
       match tokens.find? (fun tk => isSubstrOf t tk || isSubstrOf tk t) with
       | some _ => a + 1/2
       | none => a)
    = a + tokenContribution tokens t := by
  unfold tokenContribution
  cases h : tokens.contains t with
  | true => simp [h]
  | false =>
    simp only [h, Bool.false_eq_true, if_false]
    cases hf : tokens.find? (fun tk => isSubstrOf t tk || isSubstrOf tk t) with
    | none => simp
    | some x => simp

/-- The scoring fold of `score_row_by_overlap` accumulates the sum of the
per-token contributions. -/
lemma score_foldl_eq_sum (tokens : List Str) (l : List Str) (a : ℚ) :
    l.foldl
      (fun score t =>
        if tokens.contains t then score + 1
        else
          match tokens.find? (fun tk => isSubstrOf t tk || isSubstrOf tk t) with
          | some _ => score + 1/2
          | none => score) a
    = a + (l.map (tokenContribution tokens)).sum := by
  induction l generalizing a with
  | nil => simp
  | cons t l ih =>
    rw [List.foldl_cons, List.map_cons, List.sum_cons, ih, scoreStep_eq_add]
    ring

/-- The row score is the sum of the per-query-token contributions. -/
lemma score_row_eq_sum (qts : List Str) (row : KnowledgeRow) :
    score_row_by_overlap qts row
      = (qts.map (tokenContribution (tokenize (rowText row)))).sum := by
  simp only [score_row_by_overlap]
  rw [score_foldl_eq_sum, zero_add]

/-- Per-token contributions of the refund-scenario query against the
refund-scenario row: only the token `refund` scores, with a verbatim hit. -/
lemma refund_contribs :
    (tokenize refundQuery).map (tokenContribution (tokenize (rowText refundRow)))
      = [0, 1, 0] := by rfl

/-- The refund-scenario query scores exactly 1 against the refund row. -/
lemma score_refund : score_row_by_overlap (tokenize refundQuery) refundRow = 1 := by
  rw [score_row_eq_sum, refund_contribs]
  norm_num

/-- The query `zz zz` scores 0 against the refund row. -/
lemma score_zz : score_row_by_overlap (tokenize zzQuery) refundRow = 0 := by
  rw [score_row_eq_sum,
    show (tokenize zzQuery).map (tokenContribution (tokenize (rowText refundRow)))
      = [0, 0] from rfl]
  norm_num

/-- The boundary query with two verbatim hits scores exactly 2. -/
lemma score_boundary_found :
    score_row_by_overlap (tokenize boundaryQueryFound) boundaryRow = 2 := by
  rw [score_row_eq_sum,
    show (tokenize boundaryQueryFound).map (tokenContribution (tokenize (rowText boundaryRow)))
      = [1, 1] from rfl]
  norm_num

/-- The boundary query with one verbatim hit and one substring hit scores
exactly 3/2. -/
lemma score_boundary_fallback :
    score_row_by_overlap (tokenize boundaryQueryFallback) boundaryRow = 3/2 := by
  rw [score_row_eq_sum,
    show (tokenize boundaryQueryFallback).map (tokenContribution (tokenize (rowText boundaryRow)))
      = [1, 1/2] from rfl]
  norm_num

end WozoBot

namespace WozoBot

lemma maxFrom_cons (s x : ℚ) (l : List ℚ) : maxFrom s (x :: l) = maxFrom (max s x) l := rfl

lemma le_maxFrom (s : ℚ) (l : List ℚ) : s ≤ maxFrom s l := by
  induction l generalizing s with
  | nil => exact le_refl s
  | cons x l ih => exact le_trans (le_max_left s x) (ih (max s x))

lemma maxFrom_eq_or_mem (s : ℚ) (l : List ℚ) : maxFrom s l = s ∨ maxFrom s l ∈ l := by
  induction l generalizing s with
  | nil => exact Or.inl rfl
  | cons x l ih =>
    rw [maxFrom_cons]
    rcases ih (max s x) with h | h
    · rcases max_choice s x with hm | hm
      · exact Or.inl (h.trans hm)
      · exact Or.inr (by rw [h, hm]; exact List.mem_cons_self x l)
    · exact Or.inr (List.mem_cons_of_mem x h)

lemma bestStep_score (b : Best) (sr : ℚ × KnowledgeRow) :
    (bestStep b sr).score = max b.score sr.1 := by
  unfold bestStep
  split
  · next h => exact (max_eq_right h.le).symm
  · next h => exact (max_eq_left (not_lt.mp h)).symm

lemma bestFold_score (l : List (ℚ × KnowledgeRow)) :
    ∀ b : Best, (l.foldl bestStep b).score = maxFrom b.score (l.map Prod.fst) := by
  induction l with
  | nil => intro b; rfl
  | cons x l ih =>
    intro b
    rw [List.foldl_cons, List.map_cons, maxFrom_cons, ih, bestStep_score]

lemma bestFold_row (l : List (ℚ × KnowledgeRow)) :
    ∀ b : Best,
      (l.foldl bestStep b).row =
        if b.score < maxFrom b.score (l.map Prod.fst) then
          (l.find? (fun sr => decide (sr.1 = maxFrom b.score (l.map Prod.fst)))).map Prod.snd
        else b.row := by
  induction l with
  | nil =>
    intro b
    simp [maxFrom]
  | cons x l ih =>
    intro b
    rw [List.foldl_cons, List.map_cons, maxFrom_cons, ih, bestStep_score]
    by_cases hx : x.1 > b.score
    · have hrow : (bestStep b x).row = some x.2 := by simp [bestStep, hx]
      have hxm : max b.score x.1 = x.1 := max_eq_right hx.le
      rw [hrow, hxm]
      have hM : x.1 ≤ maxFrom x.1 (l.map Prod.fst) := le_maxFrom _ _
      have hbM : b.score < maxFrom x.1 (l.map Prod.fst) := lt_of_lt_of_le hx hM
      rw [if_pos hbM]
      by_cases h2 : x.1 < maxFrom x.1 (l.map Prod.fst)
      · have hne : ¬ (x.1 = maxFrom x.1 (l.map Prod.fst)) := ne_of_lt h2
        rw [if_pos h2, List.find?_cons_of_neg _ (by simpa using hne)]
      · have heq : x.1 = maxFrom x.1 (l.map Prod.fst) := le_antisymm hM (not_lt.mp h2)
        rw [if_neg h2, List.find?_cons_of_pos _ (by simpa using heq)]
        rfl
    · have hrow : bestStep b x = b := by simp [bestStep, hx]
      have hxb : x.1 ≤ b.score := not_lt.mp hx
      have hxm : max b.score x.1 = b.score := max_eq_left hxb
      rw [hrow, hxm]
      by_cases hlt : b.score < maxFrom b.score (l.map Prod.fst)
      · have hne : ¬ (x.1 = maxFrom b.score (l.map Prod.fst)) :=
          ne_of_lt (lt_of_le_of_lt hxb hlt)
        rw [if_pos hlt, if_pos hlt, List.find?_cons_of_neg _ (by simpa using hne)]
      · rw [if_neg hlt, if_neg hlt]

end WozoBot

namespace WozoBot

lemma simple_match_fst (q : Str) (rows : List KnowledgeRow) :
    (simple_match q rows).1 =
      (rows.map (fun row => (score_row_by_overlap (tokenize q) row, row))).foldl bestStep
        { score := 0, row := none } := rfl

lemma simple_match_snd (q : Str) (rows : List KnowledgeRow) :
    (simple_match q rows).2 =
      (rows.map (fun row => (score_row_by_overlap (tokenize q) row, row))).mergeSort
        (fun a b => decide (b.1 ≤ a.1)) := rfl

lemma scored_map_fst (q : Str) (rows : List KnowledgeRow) :
    (rows.map (fun row => (score_row_by_overlap (tokenize q) row, row))).map Prod.fst
      = rows.map (fun r => score_row_by_overlap (tokenize q) r) := by
  rw [List.map_map]
  rfl

lemma simple_match_score (q : Str) (rows : List KnowledgeRow) :
    (simple_match q rows).1.score = maxRowScore q rows := by
  rw [simple_match_fst, bestFold_score, scored_map_fst]
  rfl

lemma simple_match_row (q : Str) (rows : List KnowledgeRow) :
    (simple_match q rows).1.row =
      if 0 < maxRowScore q rows then
        rows.find? (fun r => decide (score_row_by_overlap (tokenize q) r = maxRowScore q rows))
      else none := by
  rw [simple_match_fst, bestFold_row, scored_map_fst, List.find?_map]
  have hsnd : (Prod.snd ∘ (fun row => (score_row_by_overlap (tokenize q) row, row))) =
      (id : KnowledgeRow → KnowledgeRow) := rfl
  rw [Option.map_map, hsnd, Option.map_id]
  rfl

lemma maxRowScore_nonneg (q : Str) (rows : List KnowledgeRow) :
    0 ≤ maxRowScore q rows :=
  le_maxFrom 0 _

lemma simple_match_row_isSome (q : Str) (rows : List KnowledgeRow)
    (h : (simple_match q rows).1.score ≠ 0) :
    (simple_match q rows).1.row.isSome = true := by
  rw [simple_match_score] at h
  have hpos : 0 < maxRowScore q rows :=
    lt_of_le_of_ne (maxRowScore_nonneg q rows) (Ne.symm h)
  rw [simple_match_row, if_pos hpos, List.find?_isSome]
  rcases maxFrom_eq_or_mem 0 (rows.map (fun r => score_row_by_overlap (tokenize q) r))
    with h0 | hmem
  · exact absurd h0 h
  · rcases List.mem_map.mp hmem with ⟨r, hr, hscore⟩
    exact ⟨r, hr, by simp [hscore, maxRowScore]⟩

lemma maxRowScore_eq_zero (q : Str) (rows : List KnowledgeRow)
    (h : ∀ r ∈ rows, score_row_by_overlap (tokenize q) r = 0) :
    maxRowScore q rows = 0 := by
  rcases maxFrom_eq_or_mem 0 (rows.map (fun r => score_row_by_overlap (tokenize q) r))
    with h0 | hmem
  · exact h0
  · rcases List.mem_map.mp hmem with ⟨r, hr, hscore⟩
    unfold maxRowScore
    rw [← hscore]
    exact h r hr

lemma respond_isFound_iff (q : Str) (rows : List KnowledgeRow) :
    (respond q rows).isFound = true ↔
      ((simple_match q rows).1.row.isSome = true ∧
        MATCH_THRESHOLD ≤ (simple_match q rows).1.score) := by
  simp only [respond]
  split
  · next h => simpa [BotResponse.isFound] using h
  · next h =>
    simp only [BotResponse.isFound, Bool.false_eq_true, false_iff]
    exact h

lemma respond_matchScore (q : Str) (rows : List KnowledgeRow) :
    (respond q rows).matchScore = (simple_match q rows).1.score := by
  simp only [respond]
  split <;> rfl

lemma respond_not_found_eq (q : Str) (rows : List KnowledgeRow)
    (h : ¬((simple_match q rows).1.row.isSome = true ∧
        MATCH_THRESHOLD ≤ (simple_match q rows).1.score)) :
    respond q rows = BotResponse.fallback apology
      (((simple_match q rows).2.take SUGGEST_COUNT).map (fun sr => suggestionFor sr.2))
      (simple_match q rows).1.score := by
  simp only [respond]
  rw [dif_neg h]

end WozoBot
namespace WozoBot

lemma tokenContribution_eq_spec (tokens : List Str) (t : Str) :
    tokenContribution tokens t = specTokenContribution tokens t := by
  unfold tokenContribution specTokenContribution
  cases h : tokens.contains t with
  | true =>
    have h' : t ∈ tokens := by simpa using h
    simp [h']
  | false =>
    have h' : ¬ t ∈ tokens := by simpa using h
    rw [if_neg h']
    cases hf : tokens.find? (fun tk => isSubstrOf t tk || isSubstrOf tk t) with
    | none =>
      have hno := List.find?_eq_none.mp hf
      have hnex : ¬ ∃ tk ∈ tokens, isSubstrOf t tk = true ∨ isSubstrOf tk t = true := by
        rintro ⟨tk, htk, hor⟩
        exact hno tk htk (by rcases hor with h1 | h1 <;> simp [h1])
      simp [h, hf, hnex]
    | some x =>
      have hx0 := List.find?_some hf
      have hmem : x ∈ tokens := List.mem_of_find?_eq_some hf
      have hex : ∃ tk ∈ tokens, isSubstrOf t tk = true ∨ isSubstrOf tk t = true :=
        ⟨x, hmem, by simpa using hx0⟩
      simp [h, hf, hex]

/-- Claim C2: for every query-token sequence and every row, the row score is
the sum, over the query tokens in order with duplicates counted
individually, of per-token contributions: 1.0 for a verbatim hit among the
row tokens, otherwise 0.5 when some row token is related to the query token
by substring containment in either direction (counted at most once per
query token, the scan stopping at the first hit), otherwise 0. -/
theorem C2_score_is_sum_of_contributions (qts : List Str) (row : KnowledgeRow) :
    score_row_by_overlap qts row = specRowScore qts (tokenize (rowText row)) := by
  rw [score_row_eq_sum, specRowScore]
  have hfun : tokenContribution (tokenize (rowText row))
      = specTokenContribution (tokenize (rowText row)) :=
    funext (tokenContribution_eq_spec (tokenize (rowText row)))
  rw [hfun]

/-- Claim C4: matching against an empty row sequence yields best score 0,
best row none and an empty ranked list, and the response is the fallback
with an empty suggestions list. -/
theorem C4_empty_rows (q : Str) :
    simple_match q [] = ({ score := 0, row := none }, []) ∧
    respond q [] = BotResponse.fallback apology [] 0 := by
  have h1 : simple_match q [] = ({ score := 0, row := none }, []) := by
    simp [simple_match]
  refine ⟨h1, ?_⟩
  have h : ¬(((simple_match q []).1.row.isSome = true) ∧
      MATCH_THRESHOLD ≤ (simple_match q []).1.score) := by
    rw [h1]
    simp
  rw [respond_not_found_eq q [] h, h1]
  simp

lemma tokenContribution_cases (tokens : List Str) (t : Str) :
    tokenContribution tokens t = 0 ∨ tokenContribution tokens t = 1/2 ∨
      tokenContribution tokens t = 1 := by
  unfold tokenContribution
  split
  · exact Or.inr (Or.inr rfl)
  · split
    · exact Or.inr (Or.inl rfl)
    · exact Or.inl rfl

lemma tokenContribution_nonneg (tokens : List Str) (t : Str) :
    0 ≤ tokenContribution tokens t := by
  rcases tokenContribution_cases tokens t with h | h | h <;> rw [h] <;> norm_num

lemma tokenContribution_le_one (tokens : List Str) (t : Str) :
    tokenContribution tokens t ≤ 1 := by
  rcases tokenContribution_cases tokens t with h | h | h <;> rw [h] <;> norm_num

lemma score_nonneg (qts : List Str) (row : KnowledgeRow) :
    0 ≤ score_row_by_overlap qts row := by
  rw [score_row_eq_sum]
  apply List.sum_nonneg
  intro x hx
  rcases List.mem_map.mp hx with ⟨t, _, rfl⟩
  exact tokenContribution_nonneg _ _

lemma sum_halves (l : List ℚ) (h : ∀ x ∈ l, ∃ n : ℕ, x = (n : ℚ)/2) :
    ∃ n : ℕ, l.sum = (n : ℚ)/2 := by
  induction l with
  | nil => exact ⟨0, by simp⟩
  | cons x l ih =>
    rcases h x (List.mem_cons_self x l) with ⟨n, hn⟩
    rcases ih (fun y hy => h y (List.mem_cons_of_mem x hy)) with ⟨m, hm⟩
    refine ⟨n + m, ?_⟩
    rw [List.sum_cons, hn, hm]
    push_cast
    ring

/-- Claim C10: every row score is at most the number of query tokens (each
query token contributes exactly 0, 0.5 or 1.0), and every score is a
non-negative integer multiple of 0.5. -/
theorem C10_score_bounds (qts : List Str) (row : KnowledgeRow) :
    score_row_by_overlap qts row ≤ (qts.length : ℚ) ∧
    (∀ t : Str, tokenContribution (tokenize (rowText row)) t = 0 ∨
      tokenContribution (tokenize (rowText row)) t = 1/2 ∨
      tokenContribution (tokenize (rowText row)) t = 1) ∧
    (∃ n : ℕ, score_row_by_overlap qts row = (n : ℚ)/2) := by
  refine ⟨?_, tokenContribution_cases _, ?_⟩
  · rw [score_row_eq_sum]
    have hb := List.sum_le_card_nsmul
      (qts.map (tokenContribution (tokenize (rowText row)))) 1 ?_
    · rw [List.length_map] at hb
      calc (qts.map (tokenContribution (tokenize (rowText row)))).sum
          ≤ qts.length • (1 : ℚ) := hb
        _ = (qts.length : ℚ) := by rw [nsmul_eq_mul, mul_one]
    · intro x hx
      rcases List.mem_map.mp hx with ⟨t, _, rfl⟩
      exact tokenContribution_le_one _ _
  · rw [score_row_eq_sum]
    apply sum_halves
    intro x hx
    rcases List.mem_map.mp hx with ⟨t, _, rfl⟩
    rcases tokenContribution_cases (tokenize (rowText row)) t with h | h | h <;> rw [h]
    · exact ⟨0, by norm_num⟩
    · exact ⟨1, by norm_num⟩
    · exact ⟨2, by norm_num⟩

/-- Claim C8: every row score is non-negative, and when every row scores 0
(including the empty knowledge base) the best pair stays (0, none) and the
response is not classified found. -/
theorem C8_nonneg_and_zero_never_found :
    (∀ (qts : List Str) (row : KnowledgeRow), 0 ≤ score_row_by_overlap qts row) ∧
    (∀ (q : Str) (rows : List KnowledgeRow),
      (∀ r ∈ rows, score_row_by_overlap (tokenize q) r = 0) →
        (simple_match q rows).1 = { score := 0, row := none } ∧
        (respond q rows).isFound = false) := by
  refine ⟨score_nonneg, fun q rows h => ?_⟩
  have hm : maxRowScore q rows = 0 := maxRowScore_eq_zero q rows h
  have hscore : (simple_match q rows).1.score = 0 := by
    rw [simple_match_score, hm]
  have hrow : (simple_match q rows).1.row = none := by
    rw [simple_match_row, hm]
    simp
  constructor
  · have hself : (simple_match q rows).1 =
        { score := (simple_match q rows).1.score, row := (simple_match q rows).1.row } := rfl
    rw [hself, hscore, hrow]
  · have hcond : ¬(((simple_match q rows).1.row.isSome = true) ∧
        MATCH_THRESHOLD ≤ (simple_match q rows).1.score) := by
      rw [hrow]
      simp
    rw [respond_not_found_eq q rows hcond]
    rfl

/-- Witness for C8 at a concrete input: the query `zz zz` scores 0 against
the refund row, so the best pair is (0, none) and the response is not
found. -/
theorem C8_witness :
    (simple_match zzQuery [refundRow]).1 = { score := 0, row := none } ∧
    (respond zzQuery [refundRow]).isFound = false :=
  C8_nonneg_and_zero_never_found.2 zzQuery [refundRow]
    (by
      intro r hr
      rcases List.mem_singleton.mp hr with rfl
      exact score_zz)

end WozoBot
namespace WozoBot

lemma maxRowScore_singleton (q : Str) (r : KnowledgeRow) :
    maxRowScore q [r] = max 0 (score_row_by_overlap (tokenize q) r) := rfl

/-- Claim C3: the response is classified found iff the best row is not none
and the best score reaches the threshold (2); a best score of exactly 2 is
found, a best score of 3/2 is fallback. -/
theorem C3_threshold_decision (q : Str) (rows : List KnowledgeRow) :
    ((respond q rows).isFound = true ↔
      ((simple_match q rows).1.row ≠ none ∧
        MATCH_THRESHOLD ≤ (simple_match q rows).1.score)) ∧
    ((simple_match q rows).1.score = 2 → (respond q rows).isFound = true) ∧
    ((simple_match q rows).1.score = 3/2 → (respond q rows).isFound = false) := by
  refine ⟨?_, ?_, ?_⟩
  · rw [respond_isFound_iff]
    constructor
    · rintro ⟨h1, h2⟩
      exact ⟨Option.isSome_iff_ne_none.mp h1, h2⟩
    · rintro ⟨h1, h2⟩
      exact ⟨Option.isSome_iff_ne_none.mpr h1, h2⟩
  · intro h2
    apply (respond_isFound_iff q rows).mpr
    refine ⟨simple_match_row_isSome q rows (by rw [h2]; norm_num), ?_⟩
    rw [h2, MATCH_THRESHOLD]
  · intro h32
    have hcond : ¬(((simple_match q rows).1.row.isSome = true) ∧
        MATCH_THRESHOLD ≤ (simple_match q rows).1.score) := by
      rintro ⟨_, hle⟩
      rw [h32] at hle
      norm_num [MATCH_THRESHOLD] at hle
    rw [respond_not_found_eq q rows hcond]
    rfl

/-- Witness for C3 at the threshold boundary: a best score of exactly 2
(query `refund please` against `boundaryRow`) is classified found, and a
best score of exactly 3/2 (query `refund pleas`) is classified fallback. -/
theorem C3_witness :
    (respond boundaryQueryFound [boundaryRow]).isFound = true ∧
    (respond boundaryQueryFallback [boundaryRow]).isFound = false := by
  constructor
  · exact (C3_threshold_decision boundaryQueryFound [boundaryRow]).2.1
      (by
        rw [simple_match_score, maxRowScore_singleton, score_boundary_found]
        norm_num)
  · exact (C3_threshold_decision boundaryQueryFallback [boundaryRow]).2.2
      (by
        rw [simple_match_score, maxRowScore_singleton, score_boundary_fallback]
        norm_num)

lemma respond_refund_eq :
    respond refundQuery [refundRow] =
      BotResponse.fallback apology ["How do I get a refund?".toList] 1 := by
  have hscore : (simple_match refundQuery [refundRow]).1.score = 1 := by
    rw [simple_match_score, maxRowScore_singleton, score_refund]
    norm_num
  have hcond : ¬(((simple_match refundQuery [refundRow]).1.row.isSome = true) ∧
      MATCH_THRESHOLD ≤ (simple_match refundQuery [refundRow]).1.score) := by
    rintro ⟨_, hle⟩
    rw [hscore] at hle
    norm_num [MATCH_THRESHOLD] at hle
  rw [respond_not_found_eq _ _ hcond, hscore]
  congr 1
  rw [simple_match_snd]
  simp [score_refund, suggestionFor, refundRow, SUGGEST_COUNT]

/-- Counterexample to claim C1: for the spec's refund scenario the computed
match score is 1 (the single query token `refund` scores one verbatim hit;
nothing else in the query matches), hence not ≥ 2, the response is not
classified found, and the returned answer is the fallback apology, not
`Contact support.`. -/
theorem C1_counterexample :
    score_row_by_overlap (tokenize refundQuery) refundRow = 1 ∧
    ¬(2 ≤ score_row_by_overlap (tokenize refundQuery) refundRow) ∧
    (respond refundQuery [refundRow]).isFound = false ∧
    (respond refundQuery [refundRow]).answerText ≠ "Contact support.".toList := by
  refine ⟨score_refund, ?_, ?_, ?_⟩
  · rw [score_refund]
    norm_num
  · rw [respond_refund_eq]
    rfl
  · rw [respond_refund_eq]
    decide

/-- Claim C1 as amended: for the spec's refund scenario the computed match
score is exactly 1, below the threshold 2, so the response is the fallback
with match score 1 and the single suggestion `How do I get a refund?`. -/
theorem C1_amended :
    score_row_by_overlap (tokenize refundQuery) refundRow = 1 ∧
    respond refundQuery [refundRow] =
      BotResponse.fallback apology ["How do I get a refund?".toList] 1 :=
  ⟨score_refund, respond_refund_eq⟩

/-- Counterexample to claim C5: for the query `zz zz` against the single-row
knowledge base `[refundRow]`, the maximum score 0 is attained by the
earliest (only) row, yet the best pair's row is none, not that row: the best
pair is not "the earliest-encountered row attaining the maximum score" when
the maximum is 0. -/
theorem C5_counterexample :
    score_row_by_overlap (tokenize zzQuery) refundRow = 0 ∧
    maxRowScore zzQuery [refundRow] = 0 ∧
    (simple_match zzQuery [refundRow]).1.row = none := by
  have hm : maxRowScore zzQuery [refundRow] = 0 := by
    rw [maxRowScore_singleton, score_zz]
    norm_num
  refine ⟨score_zz, hm, ?_⟩
  rw [simple_match_row, hm]
  simp

/-- Claim C5 as amended: the best score equals the maximum row score (0 for
the empty base), and the best row is the earliest-encountered row attaining
that maximum when the maximum is positive, and none when the maximum is 0
(the strictly-greater replacement never fires on a score of 0). -/
theorem C5_amended (q : Str) (rows : List KnowledgeRow) :
    (simple_match q rows).1.score = maxRowScore q rows ∧
    (simple_match q rows).1.row =
      (if 0 < maxRowScore q rows then
        rows.find? (fun r => decide (score_row_by_overlap (tokenize q) r = maxRowScore q rows))
      else none) :=
  ⟨simple_match_score q rows, simple_match_row q rows⟩

end WozoBot
namespace WozoBot

lemma splitSeg_ne_nil (s : Str) : splitSeg s ≠ [] := by
  cases s with
  | nil => simp [splitSeg]
  | cons a rest =>
    cases hrec : splitSeg rest with
    | nil => simp [splitSeg, hrec]
    | cons t ts =>
      simp only [splitSeg, hrec]
      split <;> simp

lemma splitSeg_mem_chars (s : Str) :
    ∀ t ∈ splitSeg s, ∀ c ∈ t, c ∈ s ∧ ¬ c.isWhitespace = true := by
  induction s with
  | nil =>
    intro t ht c hc
    simp only [splitSeg, List.mem_singleton] at ht
    subst ht
    simp at hc
  | cons a rest ih =>
    intro t ht c hc
    cases hrec : splitSeg rest with
    | nil => exact absurd hrec (splitSeg_ne_nil rest)
    | cons t0 ts =>
      simp only [splitSeg, hrec] at ht
      by_cases hw : a.isWhitespace = true
      · rw [if_pos hw] at ht
        rcases List.mem_cons.mp ht with rfl | ht'
        · simp at hc
        · have hres := ih t (by rw [hrec]; exact ht') c hc
          exact ⟨List.mem_cons_of_mem a hres.1, hres.2⟩
      · rw [if_neg hw] at ht
        rcases List.mem_cons.mp ht with rfl | ht'
        · rcases List.mem_cons.mp hc with rfl | hc'
          · exact ⟨List.mem_cons_self _ _, hw⟩
          · have hres := ih t0 (by rw [hrec]; exact List.mem_cons_self t0 ts) c hc'
            exact ⟨List.mem_cons_of_mem a hres.1, hres.2⟩
        · have hres := ih t (by rw [hrec]; exact List.mem_cons_of_mem t0 ht') c hc
          exact ⟨List.mem_cons_of_mem a hres.1, hres.2⟩

lemma tokenize_eq_filter (s : Str) :
    tokenize s =
      (splitSeg ((s.map Char.toLower).map (fun c => if keepChar c then c else ' '))).filter
        (fun t => 1 < t.length) := rfl

lemma mem_tokenize_length (s t : Str) (ht : t ∈ tokenize s) : 1 < t.length := by
  rw [tokenize_eq_filter] at ht
  have := (List.mem_filter.mp ht).2
  exact of_decide_eq_true this

lemma tokenize_eq_nil_of_cleaned_ws (s : Str)
    (h : ∀ c ∈ (s.map Char.toLower).map (fun c => if keepChar c then c else ' '),
      c.isWhitespace = true) :
    tokenize s = [] := by
  by_contra hne
  obtain ⟨t, ht⟩ := List.exists_mem_of_ne_nil _ hne
  have hlen : 1 < t.length := mem_tokenize_length s t ht
  obtain ⟨c, hc⟩ := List.exists_mem_of_ne_nil t
    (by
      intro h0
      rw [h0] at hlen
      simp at hlen)
  rw [tokenize_eq_filter] at ht
  have hmem := (List.mem_filter.mp ht).1
  have hchar := splitSeg_mem_chars _ t hmem c hc
  exact hchar.2 (h c hchar.1)

lemma whitespace_toLower (c : Char) (h : c.isWhitespace = true) :
    (Char.toLower c).isWhitespace = true := by
  have hcases : c = ' ' ∨ c = '\t' ∨ c = '\r' ∨ c = '\n' := by
    simp only [Char.isWhitespace, Bool.or_eq_true, decide_eq_true_eq] at h
    tauto
  rcases hcases with rfl | rfl | rfl | rfl <;> decide

/-- Counterexample to claim C7: the string `--` consists only of punctuation
characters (neither word characters nor whitespace), yet it tokenizes to the
single token `--`, not to the empty sequence, because the tokenizer's
character class keeps hyphens. -/
theorem C7_counterexample :
    (∀ c ∈ ("--".toList), isWordChar c = false ∧ c.isWhitespace = false) ∧
    tokenize ("--".toList) = ["--".toList] := by
  constructor
  · decide
  · rfl

/-- Claim C7 as amended: tokenizing the empty string, a null text, a string
of characters dropped by the tokenizer's character class (punctuation other
than hyphens and apostrophes), or a whitespace-only string yields the empty
token sequence; every token produced by the tokenizer has length strictly
greater than 1; and for a query with no tokens every row scores 0, the
response is not classified found, and its match score is 0. -/
theorem C7_amended :
    tokenize [] = [] ∧
    tokenize_opt none = [] ∧
    (∀ s : Str, (∀ c ∈ s, keepChar c.toLower = false) → tokenize s = []) ∧
    (∀ s : Str, (∀ c ∈ s, c.isWhitespace = true) → tokenize s = []) ∧
    (∀ s t : Str, t ∈ tokenize s → 1 < t.length) ∧
    (∀ (q : Str) (rows : List KnowledgeRow), tokenize q = [] →
      ((∀ r ∈ rows, score_row_by_overlap (tokenize q) r = 0) ∧
        (respond q rows).isFound = false ∧
        (respond q rows).matchScore = 0)) := by
  refine ⟨rfl, rfl, ?_, ?_, mem_tokenize_length, ?_⟩
  · intro s hall
    apply tokenize_eq_nil_of_cleaned_ws
    intro c hcmem
    rcases List.mem_map.mp hcmem with ⟨d, hd, rfl⟩
    rcases List.mem_map.mp hd with ⟨e, he, rfl⟩
    rw [hall e he]
    simp
  · intro s hall
    apply tokenize_eq_nil_of_cleaned_ws
    intro c hcmem
    rcases List.mem_map.mp hcmem with ⟨d, hd, rfl⟩
    rcases List.mem_map.mp hd with ⟨e, he, rfl⟩
    have hwl : (Char.toLower e).isWhitespace = true := whitespace_toLower e (hall e he)
    by_cases hk : keepChar (Char.toLower e) = true
    · rw [if_pos hk]
      exact hwl
    · rw [if_neg hk]
      decide
  · intro q rows hq
    have hscores : ∀ r ∈ rows, score_row_by_overlap (tokenize q) r = 0 := by
      intro r hr
      rw [hq]
      rfl
    have hm : maxRowScore q rows = 0 := maxRowScore_eq_zero q rows hscores
    have hrow : (simple_match q rows).1.row = none := by
      rw [simple_match_row, hm]
      simp
    have hcond : ¬(((simple_match q rows).1.row.isSome = true) ∧
        MATCH_THRESHOLD ≤ (simple_match q rows).1.score) := by
      rw [hrow]
      simp
    refine ⟨hscores, ?_, ?_⟩
    · rw [respond_not_found_eq q rows hcond]
      rfl
    · rw [respond_matchScore, simple_match_score, hm]

/-- Witness for C7 at concrete inputs: a string of dropped punctuation and a
whitespace-only string tokenize to nothing, and a token-less query produces
a not-found response with match score 0. -/
theorem C7_witness :
    tokenize ("?!.,;:".toList) = [] ∧
    tokenize ("   ".toList) = [] ∧
    (respond ("??".toList) [refundRow]).isFound = false ∧
    (respond ("??".toList) [refundRow]).matchScore = 0 := by
  have h6 := C7_amended.2.2.2.2.2 ("??".toList) [refundRow] (by rfl)
  exact ⟨C7_amended.2.2.1 _ (by decide), C7_amended.2.2.2.1 _ (by decide), h6.2.1, h6.2.2⟩

end WozoBot
namespace WozoBot

/-- Claim C6: the ranked list contains the (score, row) pair of every input
row, is sorted by score in descending order, and preserves the original
relative order of equal-score rows (stable sort): filtering the ranked list
to any fixed score gives exactly the same-score pairs of the scored input in
input order. -/
theorem C6_ranked_list (q : Str) (rows : List KnowledgeRow) :
    (∀ r ∈ rows, (score_row_by_overlap (tokenize q) r, r) ∈ (simple_match q rows).2) ∧
    List.Pairwise (fun a b => b.1 ≤ a.1) (simple_match q rows).2 ∧
    (∀ s : ℚ,
      ((simple_match q rows).2.filter (fun p => decide (p.1 = s))) =
        ((rows.map (fun r => (score_row_by_overlap (tokenize q) r, r))).filter
          (fun p => decide (p.1 = s)))) := by
  have htrans : ∀ (a b c : ℚ × KnowledgeRow),
      (fun a b => decide (b.1 ≤ a.1)) a b → (fun a b => decide (b.1 ≤ a.1)) b c →
        (fun a b => decide (b.1 ≤ a.1)) a c := by
    intro a b c hab hbc
    exact decide_eq_true (le_trans (of_decide_eq_true hbc) (of_decide_eq_true hab))
  have htotal : ∀ (a b : ℚ × KnowledgeRow),
      ((fun a b => decide (b.1 ≤ a.1)) a b || (fun a b => decide (b.1 ≤ a.1)) b a) := by
    intro a b
    rcases le_total b.1 a.1 with h | h <;> simp [h]
  refine ⟨?_, ?_, ?_⟩
  · intro r hr
    rw [simple_match_snd, List.mem_mergeSort]
    exact List.mem_map_of_mem _ hr
  · rw [simple_match_snd]
    have hs := List.sorted_mergeSort htrans htotal
      (rows.map (fun r => (score_row_by_overlap (tokenize q) r, r)))
    exact hs.imp (fun h => of_decide_eq_true h)
  · intro s
    have hpairA : ((rows.map (fun r => (score_row_by_overlap (tokenize q) r, r))).filter
        (fun p => decide (p.1 = s))).Pairwise (fun a b => (fun a b => decide (b.1 ≤ a.1)) a b) := by
      apply List.pairwise_of_forall_mem_list
      intro a ha b hb
      have ha1 : a.1 = s := of_decide_eq_true (List.mem_filter.mp ha).2
      have hb1 : b.1 = s := of_decide_eq_true (List.mem_filter.mp hb).2
      exact decide_eq_true (le_of_eq (hb1.trans ha1.symm))
    have hsub1 : List.Sublist
        ((rows.map (fun r => (score_row_by_overlap (tokenize q) r, r))).filter
          (fun p => decide (p.1 = s))) (simple_match q rows).2 := by
      rw [simple_match_snd]
      exact List.sublist_mergeSort htrans htotal hpairA (List.filter_sublist _)
    have hself : (((rows.map (fun r => (score_row_by_overlap (tokenize q) r, r))).filter
        (fun p => decide (p.1 = s))).filter (fun p => decide (p.1 = s)))
        = ((rows.map (fun r => (score_row_by_overlap (tokenize q) r, r))).filter
          (fun p => decide (p.1 = s))) := by
      apply List.filter_eq_self.mpr
      intro a ha
      exact (List.mem_filter.mp ha).2
    have hsub2 : List.Sublist
        ((rows.map (fun r => (score_row_by_overlap (tokenize q) r, r))).filter
          (fun p => decide (p.1 = s)))
        ((simple_match q rows).2.filter (fun p => decide (p.1 = s))) := by
      rw [← hself]
      exact hsub1.filter _
    have hperm : List.Perm (simple_match q rows).2
        (rows.map (fun r => (score_row_by_overlap (tokenize q) r, r))) := by
      rw [simple_match_snd]
      exact List.mergeSort_perm _ _
    have hlen : ((simple_match q rows).2.filter (fun p => decide (p.1 = s))).length =
        ((rows.map (fun r => (score_row_by_overlap (tokenize q) r, r))).filter
          (fun p => decide (p.1 = s))).length :=
      (hperm.filter _).length_eq
    exact (List.Sublist.eq_of_length hsub2 hlen.symm).symm

end WozoBot
namespace WozoBot

/-- Claim C9: in the fallback (not-found) response, the suggestions are
built from at most the top `SUGGEST_COUNT` (3) rows of the ranked list in
ranked order — each suggestion being the row's first question example when
the example list is non-empty, else its intent (the empty string when the
intent is absent or empty) — and the response carries the numeric match
score of the best sub-threshold candidate. -/
theorem C9_fallback_suggestions (q : Str) (rows : List KnowledgeRow)
    (h : (respond q rows).isFound = false) :
    (respond q rows).suggestions =
      (((simple_match q rows).2.take SUGGEST_COUNT).map (fun sr =>
        match sr.2.question_examples with
        | e :: _ => e
        | [] => sr.2.intent)) ∧
    (respond q rows).suggestions.length ≤ SUGGEST_COUNT ∧
    (respond q rows).matchScore = (simple_match q rows).1.score := by
  have hcond : ¬(((simple_match q rows).1.row.isSome = true) ∧
      MATCH_THRESHOLD ≤ (simple_match q rows).1.score) := by
    intro hc
    have hfound := (respond_isFound_iff q rows).mpr hc
    rw [h] at hfound
    exact absurd hfound (by simp)
  rw [respond_not_found_eq q rows hcond]
  refine ⟨rfl, ?_, rfl⟩
  show (((simple_match q rows).2.take SUGGEST_COUNT).map (fun sr => suggestionFor sr.2)).length
      ≤ SUGGEST_COUNT
  rw [List.length_map, List.length_take]
  exact min_le_left _ _

/-- Witness for C9 at a concrete input: the query `zz zz` yields a fallback
response whose suggestions come from the ranked list and whose match score
is the best score. -/
theorem C9_witness :
    (respond zzQuery [refundRow]).suggestions =
      (((simple_match zzQuery [refundRow]).2.take SUGGEST_COUNT).map (fun sr =>
        match sr.2.question_examples with
        | e :: _ => e
        | [] => sr.2.intent)) ∧
    (respond zzQuery [refundRow]).suggestions.length ≤ SUGGEST_COUNT ∧
    (respond zzQuery [refundRow]).matchScore = (simple_match zzQuery [refundRow]).1.score := by
  apply C9_fallback_suggestions
  have hscore : (simple_match zzQuery [refundRow]).1.score = 0 := by
    rw [simple_match_score, maxRowScore_singleton, score_zz]
    norm_num
  have hcond : ¬(((simple_match zzQuery [refundRow]).1.row.isSome = true) ∧
      MATCH_THRESHOLD ≤ (simple_match zzQuery [refundRow]).1.score) := by
    rintro ⟨_, hle⟩
    rw [hscore] at hle
    norm_num [MATCH_THRESHOLD] at hle
  rw [respond_not_found_eq _ _ hcond]
  rfl

end WozoBot
